import Mathlib

/-!
Shallow embedding of the paginated listing helpers of a GitHub utility
library (branch, deployment, pull-request and comment helpers), together
with theorems checking the specification's statements about them.

The remote API client is modelled as a pure dependency: a paginated
endpoint is a list of pages (`List (List α)`); out-of-range pages are
empty, matching a provider that returns an empty page past the end of the
data.  Each embedded listing function returns, alongside its result, the
trace of requests it issued: a list of `(page, per_page)` pairs in request
order, so that call counts and requested page sizes are part of the
observable behaviour.  Errors thrown by the remote client are modelled as
values (`GHError`), and functions that catch or raise errors return
`Except`-style results.
-/

/-- An error thrown by the REST client.  The source inspects only
`error?.status`, which may be absent, hence `Option Nat`. -/
structure GHError where
  status : Option Nat
deriving DecidableEq

/-- A pull-request label as delivered by the API: either a bare string or
an object carrying a `name` field (the source checks
`typeof label === 'string'`). -/
inductive PRLabelV where
  | str (s : String)
  | obj (name : String)
deriving DecidableEq

/-- `typeof label === 'string' ? label : label.name` from
`findPRsWithLabels` / `searchPullRequests` / `findPullRequestsByLabels`. -/
def labelName : PRLabelV → String
  | .str s => s
  | .obj n => n

/-- `label.name` as used by `pullRequestHasLabels`: on a bare string label
JavaScript would yield `undefined`, hence `Option String`. -/
def labelObjName : PRLabelV → Option String
  | .str _ => none
  | .obj n => some n

/-- The fields of a pull request that the embedded functions inspect:
`number`, `labels`, and `user?.login`. -/
structure PullRequest where
  number : Nat
  labels : List PRLabelV
  user : Option String
deriving DecidableEq

/-- The fields of a branch record that `listAllBranches` inspects. -/
structure Branch where
  name : String
deriving DecidableEq

/-- The fields of an issue comment that `searchComments` inspects:
`body` (optional), `user?.login`, and `created_at` (dates modelled as
integers ordered like timestamps). -/
structure IssueComment where
  body : Option String
  user : Option String
  created_at : Int
deriving DecidableEq

/-- The `CommentSearchOptions` accepted by `searchComments` (the `limit`
default of 100 is supplied at call sites). -/
structure CommentSearchOptions where
  bodyContains : Option String
  author : Option String
  createdAfter : Option Int
  createdBefore : Option Int
  limit : Nat
deriving DecidableEq

/-- The pagination loop shared (verbatim, per call site) by
`listDeployments` and `listAllBranches`:

    while (acc.length < limit) {
      const { data } = await fetch({ per_page: perPage, page });
      if (data.length === 0) break;
      acc.push(...data.map(proj));
      if (data.length < perPage) break;
      page++;
    }

`pages` is the remainder of the remote data from page `page` onward; the
returned trace lists each issued request as `(page, perPage)`. -/
def plainPagesLoop (proj : α → β) (limit perPage : Nat) (page : Nat)
    (acc : List β) : List (List α) → List β × List (Nat × Nat)
  | [] =>
    if acc.length < limit then (acc, [(page, perPage)]) else (acc, [])
  | data :: rest =>
    if acc.length < limit then
      if data.length = 0 then (acc, [(page, perPage)])
      else
        let acc' := acc ++ data.map proj
        if data.length < perPage then (acc', [(page, perPage)])
        else
          let r := plainPagesLoop proj limit perPage (page + 1) acc' rest
          (r.1, (page, perPage) :: r.2)
    else (acc, [])

/-- The pagination loop shared (verbatim, per call site) by
`findPRsWithLabels` and `searchPullRequests`: each page is filtered by a
predicate before being appended, and the loop breaks when
`data.length < perPage || acc.length >= limit`. -/
def filterPagesLoop (pred : α → Bool) (limit perPage : Nat) (page : Nat)
    (acc : List α) : List (List α) → List α × List (Nat × Nat)
  | [] =>
    if acc.length < limit then (acc, [(page, perPage)]) else (acc, [])
  | data :: rest =>
    if acc.length < limit then
      if data.length = 0 then (acc, [(page, perPage)])
      else
        let acc' := acc ++ data.filter pred
        if data.length < perPage ∨ limit ≤ acc'.length then
          (acc', [(page, perPage)])
        else
          let r := filterPagesLoop pred limit perPage (page + 1) acc' rest
          (r.1, (page, perPage) :: r.2)
    else (acc, [])

/-- `listDeployments` (deployment records are passed through verbatim,
hence the polymorphic item type): `perPage = Math.min(limit, 100)`,
accumulate raw pages, return `deployments.slice(0, limit)` and the
request trace. -/
def listDeployments (limit : Nat) (pages : List (List α)) :
    List α × List (Nat × Nat) :=
  let perPage := min limit 100
  let r := plainPagesLoop id limit perPage 1 [] pages
  (r.1.take limit, r.2)

/-- `listAllBranches`: `perPage = Math.min(limit, 100)`, accumulate
`data.map(branch => branch.name)`, return `branches.slice(0, limit)` and
the request trace. -/
def listAllBranches (limit : Nat) (pages : List (List Branch)) :
    List String × List (Nat × Nat) :=
  let perPage := min limit 100
  let r := plainPagesLoop Branch.name limit perPage 1 [] pages
  (r.1.take limit, r.2)

/-- The per-item filter of `findPRsWithLabels`: reject PRs listed in
`excludePRs`, then require every requested label to occur among the PR's
label names. -/
def prMatches (labels : List String) (excludePRs : List Nat)
    (pr : PullRequest) : Bool :=
  if excludePRs.contains pr.number then false
  else labels.all fun requiredLabel =>
    (pr.labels.map labelName).contains requiredLabel

/-- `findPRsWithLabels`: throws `'At least one label must be specified'`
on an empty label list before any fetch (empty trace); otherwise loops
with `perPage = Math.min(limit * 2, 100)`, filters each page with
`prMatches`, and returns `pullRequests.slice(0, limit)`. -/
def findPRsWithLabels (labels : List String) (limit : Nat)
    (excludePRs : List Nat) (pages : List (List PullRequest)) :
    Except String (List PullRequest) × List (Nat × Nat) :=
  if labels.length = 0 then
    (.error "At least one label must be specified", [])
  else
    let perPage := min (limit * 2) 100
    let r := filterPagesLoop (prMatches labels excludePRs) limit perPage 1 [] pages
    (.ok (r.1.take limit), r.2)

/-- The label clause of `searchPullRequests`' filter: applied only when
`labels.length > 0`. -/
def searchLabelCheck (labels : List String) (pr : PullRequest) : Bool :=
  if 0 < labels.length then
    labels.all fun requiredLabel =>
      (pr.labels.map labelName).contains requiredLabel
  else true

/-- The per-item filter of `searchPullRequests`: exclusion list, then
author (`if (author && pr.user?.login !== author)`, where an empty author
string is falsy and skips the check), then the label clause. -/
def searchPRMatches (labels : List String) (author : Option String)
    (excludePRs : List Nat) (pr : PullRequest) : Bool :=
  if excludePRs.contains pr.number then false
  else
    match author with
    | some a =>
      if a ≠ "" ∧ pr.user ≠ some a then false
      else searchLabelCheck labels pr
    | none => searchLabelCheck labels pr

/-- `searchPullRequests`: no validation error; loops with
`perPage = Math.min(limit * 2, 100)`, filters with `searchPRMatches`,
returns `pullRequests.slice(0, limit)` and the trace. -/
def searchPullRequests (labels : List String) (author : Option String)
    (limit : Nat) (excludePRs : List Nat)
    (pages : List (List PullRequest)) :
    List PullRequest × List (Nat × Nat) :=
  let perPage := min (limit * 2) 100
  let r := filterPagesLoop (searchPRMatches labels author excludePRs)
    limit perPage 1 [] pages
  (r.1.take limit, r.2)

/-- The label test of `findPullRequestsByLabels` (no exclusion list in
that function). -/
def prHasAllLabels (labels : List String) (pr : PullRequest) : Bool :=
  labels.all fun requiredLabel =>
    (pr.labels.map labelName).contains requiredLabel

/-- `findPullRequestsByLabels`: single-fetch variant.  Throws on an empty
label list before the fetch (empty trace); otherwise performs exactly one
`pulls.list` call with `per_page = Math.min(limit * 2, 100)` (the fetch
dependency maps the requested page size to the returned records), filters,
and returns `matchingPRs.slice(0, limit)`.  The trace lists the requested
page sizes. -/
def findPullRequestsByLabels (labels : List String) (limit : Nat)
    (fetch : Nat → List PullRequest) :
    Except String (List PullRequest) × List Nat :=
  if labels.length = 0 then
    (.error "At least one label must be specified", [])
  else
    let perPage := min (limit * 2) 100
    let data := fetch perPage
    (.ok ((data.filter (prHasAllLabels labels)).take limit), [perPage])

/-- `startsWith` on lists, used to express JavaScript's
`String.prototype.includes`. -/
def listStartsWith [BEq α] : List α → List α → Bool
  | _, [] => true
  | [], _ :: _ => false
  | a :: as, b :: bs => a == b && listStartsWith as bs

/-- JavaScript's `hay.includes(needle)` over the underlying character
lists. -/
def listIncludes [BEq α] (hay needle : List α) : Bool :=
  match hay with
  | [] => needle.isEmpty
  | _ :: rest => listStartsWith hay needle || listIncludes rest needle

/-- ASCII lowering of one character, modelling
`String.prototype.toLowerCase` on the character sets exercised here. -/
def charLower (c : Char) : Char :=
  if 'A' ≤ c ∧ c ≤ 'Z' then Char.ofNat (c.toNat + 32) else c

/-- `toLowerCase` over the underlying character list. -/
def lowerList (l : List Char) : List Char := l.map charLower

/-- `comment.body?.toLowerCase().includes(bodyContains.toLowerCase())`
(an absent body fails the test, as the optional chain is falsy). -/
def commentBodyTest (s : String) (comment : IssueComment) : Bool :=
  match comment.body with
  | some b => listIncludes (lowerList b.toList) (lowerList s.toList)
  | none => false

/-- `if (bodyContains) filteredComments = filteredComments.filter(...)`
(an absent or empty — falsy — option skips the filter). -/
def bodyFilter (bodyContains : Option String) (l : List IssueComment) :
    List IssueComment :=
  match bodyContains with
  | some s => if s = "" then l else l.filter (commentBodyTest s)
  | none => l

/-- `if (author) filteredComments = filteredComments.filter(...)`. -/
def authorFilter (author : Option String) (l : List IssueComment) :
    List IssueComment :=
  match author with
  | some a =>
    if a = "" then l
    else l.filter fun (comment : IssueComment) => comment.user == some a
  | none => l

/-- `if (createdAfter) filteredComments = filteredComments.filter(...)`. -/
def afterFilter (createdAfter : Option Int) (l : List IssueComment) :
    List IssueComment :=
  match createdAfter with
  | some t =>
    l.filter fun (comment : IssueComment) => decide (t < comment.created_at)
  | none => l

/-- `if (createdBefore) filteredComments = filteredComments.filter(...)`. -/
def beforeFilter (createdBefore : Option Int) (l : List IssueComment) :
    List IssueComment :=
  match createdBefore with
  | some t =>
    l.filter fun (comment : IssueComment) => decide (comment.created_at < t)
  | none => l

/-- `searchComments`: exactly one `listComments` call with
`per_page = Math.min(limit, 100)`; then the `bodyContains`
(case-insensitive substring, skipped when the option is absent or the
empty string, which is falsy in the source), `author` (likewise),
`createdAfter` and `createdBefore` filters in that order; finally
`filteredComments.slice(0, limit)`.  The trace lists the requested page
sizes. -/
def searchComments (options : CommentSearchOptions)
    (fetch : Nat → List IssueComment) : List IssueComment × List Nat :=
  let perPage := min options.limit 100
  let allComments := fetch perPage
  ((beforeFilter options.createdBefore
      (afterFilter options.createdAfter
        (authorFilter options.author
          (bodyFilter options.bodyContains allComments)))).take options.limit,
   [perPage])

/-- `pullRequestHasLabels`: one `pulls.get` fetch (counted in the second
component), then `labels.every(...)` when `requireAll` (the default) and
`labels.some(...)` otherwise, over `pr.labels.map(label => label.name)`. -/
def pullRequestHasLabels (fetchPR : Unit → PullRequest)
    (labels : List String) (requireAll : Bool) : Bool × Nat :=
  let pr := fetchPR ()
  let prLabels := pr.labels.map labelObjName
  (if requireAll then labels.all fun label => prLabels.contains (some label)
   else labels.any fun label => prLabels.contains (some label), 1)

/-- Observable outcome of `removeLabelsFromPullRequest`: which labels were
attempted (a `removeLabel` call issued), which were logged as absent
(caught 404s), and the error re-thrown, if any. -/
structure RemoveOutcome where
  attempted : List String
  notFoundLogged : List String
  thrown : Option GHError
deriving DecidableEq

/-- The `for (const label of labels)` loop of
`removeLabelsFromPullRequest`: each removal that fails with
`error?.status === 404` is logged as informational and skipped; any other
failure re-throws, aborting the remaining labels. -/
def removeLabelsLoop (removeLabel : String → Option GHError) :
    List String → RemoveOutcome
  | [] => ⟨[], [], none⟩
  | label :: rest =>
    match removeLabel label with
    | none =>
      let r := removeLabelsLoop removeLabel rest
      ⟨label :: r.attempted, r.notFoundLogged, r.thrown⟩
    | some e =>
      if e.status = some 404 then
        let r := removeLabelsLoop removeLabel rest
        ⟨label :: r.attempted, label :: r.notFoundLogged, r.thrown⟩
      else ⟨[label], [], some e⟩

/-- `removeLabelsFromPullRequest`: on an empty list the source logs and
returns without calls, which coincides with the loop on `[]`. -/
def removeLabelsFromPullRequest (removeLabel : String → Option GHError)
    (labels : List String) : RemoveOutcome :=
  removeLabelsLoop removeLabel labels

/-- `checkBranchExists`: `getBranch` succeeding yields `true`; a failure
with `error?.status === 404` yields `false`; any other failure is
re-thrown unchanged. -/
def checkBranchExists (getBranch : Except GHError Unit) :
    Except GHError Bool :=
  match getBranch with
  | .ok _ => .ok true
  | .error e => if e.status = some 404 then .ok false else .error e

/-- `getBranchProtection`: the data on success; `null` on a failure with
`error?.status === 404`; any other failure is re-thrown unchanged. -/
def getBranchProtection (fetchProtection : Except GHError α) :
    Except GHError (Option α) :=
  match fetchProtection with
  | .ok d => .ok (some d)
  | .error e => if e.status = some 404 then .ok none else .error e

/-- Concrete remote data for the three-page scenario: pages of raw sizes
100, 100 and 37 whose concatenation is `List.range 237`. -/
def pagesOf237 : List (List Nat) :=
  [List.range 100, (List.range 100).map (fun n => n + 100),
   (List.range 37).map (fun n => n + 200)]

/-- The same three-page scenario as branch records: names are the decimal
numerals of 0..236 in order. -/
def branchesOf237 : List (List Branch) :=
  [(List.range 100).map (fun n => ⟨toString n⟩),
   (List.range 100).map (fun n => ⟨toString (n + 100)⟩),
   (List.range 37).map (fun n => ⟨toString (n + 200)⟩)]

/-- A PR carrying labels A and B. -/
def prAB : PullRequest := ⟨1, [.obj "A", .obj "B"], none⟩

/-- A PR carrying only label A. -/
def prOnlyA : PullRequest := ⟨2, [.obj "A"], none⟩

/-- A PR carrying labels A, B and C. -/
def prABC : PullRequest := ⟨3, [.obj "A", .obj "B", .obj "C"], none⟩

/-- A PR carrying neither A nor B. -/
def prNoMatch : PullRequest := ⟨4, [.obj "X"], none⟩

/-- A PR with no labels at all. -/
def prBare : PullRequest := ⟨5, [], none⟩

/-- A removal stub: fails with a 404 on the label `"nonexistent"`,
succeeds on everything else. -/
def removeStub : String → Option GHError :=
  fun label => if label = "nonexistent" then some ⟨some 404⟩ else none

/-- A removal stub failing the label `"bad"` with a 500 error. -/
def removeStubAbort : String → Option GHError :=
  fun label => if label = "bad" then some ⟨some 500⟩ else none

/-- A comment matching every filter of `commentOpts`. -/
def commentA : IssueComment := ⟨some "a BUG here", some "alice", 10⟩

/-- A comment matching none of the content filters of `commentOpts`. -/
def commentB : IssueComment := ⟨some "nothing", some "bob", 30⟩

/-- Search options exercising all four comment filters. -/
def commentOpts : CommentSearchOptions :=
  ⟨some "Bug", some "alice", some 5, some 20, 2⟩

/-- A single-page comment fetch stub. -/
def commentFetch : Nat → List IssueComment := fun _ => [commentA, commentB]

/-- Every request issued by `filterPagesLoop` carries the fixed
`perPage`. -/
theorem filterPagesLoop_perPage (pred : α → Bool) (limit perPage : Nat) :
    ∀ (pages : List (List α)) (page : Nat) (acc : List α),
      ∀ c ∈ (filterPagesLoop pred limit perPage page acc pages).2,
        c.2 = perPage := by
  intro pages
  induction pages with
  | nil =>
    intro page acc c hc
    simp only [filterPagesLoop] at hc
    split at hc
    · simp at hc; simp [hc]
    · simp at hc
  | cons data rest ih =>
    intro page acc c hc
    simp only [filterPagesLoop] at hc
    split at hc
    · split at hc
      · simp at hc; simp [hc]
      · split at hc
        · simp at hc; simp [hc]
        · simp only [List.mem_cons] at hc
          rcases hc with h | h
          · simp [h]
          · exact ih _ _ c h
    · simp at hc

/-- Every request issued by `plainPagesLoop` carries the fixed
`perPage`. -/
theorem plainPagesLoop_perPage (proj : α → β) (limit perPage : Nat) :
    ∀ (pages : List (List α)) (page : Nat) (acc : List β),
      ∀ c ∈ (plainPagesLoop proj limit perPage page acc pages).2,
        c.2 = perPage := by
  intro pages
  induction pages with
  | nil =>
    intro page acc c hc
    simp only [plainPagesLoop] at hc
    split at hc
    · simp at hc; simp [hc]
    · simp at hc
  | cons data rest ih =>
    intro page acc c hc
    simp only [plainPagesLoop] at hc
    split at hc
    · split at hc
      · simp at hc; simp [hc]
      · split at hc
        · simp at hc; simp [hc]
        · simp only [List.mem_cons] at hc
          rcases hc with h | h
          · simp [h]
          · exact ih _ _ c h
    · simp at hc

/-- If `filterPagesLoop` issues a request after its `i`-th one (0-based),
then the `i`-th fetched page was nonempty and not short: its raw length
reached `perPage`. -/
theorem filterPagesLoop_full_before_next (pred : α → Bool)
    (limit perPage : Nat) :
    ∀ (pages : List (List α)) (page : Nat) (acc : List α) (i : Nat),
      i + 1 < (filterPagesLoop pred limit perPage page acc pages).2.length →
      perPage ≤ (pages.getD i []).length ∧ (pages.getD i []).length ≠ 0 := by
  intro pages
  induction pages with
  | nil =>
    intro page acc i hi
    simp only [filterPagesLoop] at hi
    split at hi <;> simp at hi
  | cons data rest ih =>
    intro page acc i hi
    simp only [filterPagesLoop] at hi
    split at hi
    · split at hi
      · simp at hi
      · split at hi
        · simp at hi
        · rename_i hne hcont
          simp only [List.length_cons] at hi
          match i with
          | 0 =>
            push_neg at hcont
            simp only [List.getD_cons_zero]
            exact ⟨hcont.1, hne⟩
          | j + 1 =>
            simp only [List.getD_cons_succ]
            exact ih (page + 1) (acc ++ data.filter pred) j (by omega)
    · simp at hi

/-- If `plainPagesLoop` issues a request after its `i`-th one (0-based),
then the `i`-th fetched page was nonempty and not short. -/
theorem plainPagesLoop_full_before_next (proj : α → β)
    (limit perPage : Nat) :
    ∀ (pages : List (List α)) (page : Nat) (acc : List β) (i : Nat),
      i + 1 < (plainPagesLoop proj limit perPage page acc pages).2.length →
      perPage ≤ (pages.getD i []).length ∧ (pages.getD i []).length ≠ 0 := by
  intro pages
  induction pages with
  | nil =>
    intro page acc i hi
    simp only [plainPagesLoop] at hi
    split at hi <;> simp at hi
  | cons data rest ih =>
    intro page acc i hi
    simp only [plainPagesLoop] at hi
    split at hi
    · split at hi
      · simp at hi
      · split at hi
        · simp at hi
        · rename_i hne hshort
          simp only [List.length_cons] at hi
          match i with
          | 0 =>
            simp only [List.getD_cons_zero]
            exact ⟨by omega, hne⟩
          | j + 1 =>
            simp only [List.getD_cons_succ]
            exact ih (page + 1) (acc ++ data.map proj) j (by omega)
    · simp at hi

/-- As long as the accumulator is below the limit, `filterPagesLoop`
issues at least one request. -/
theorem filterPagesLoop_first_call (pred : α → Bool) (limit perPage : Nat)
    (pages : List (List α)) (page : Nat) (acc : List α)
    (h : acc.length < limit) :
    1 ≤ (filterPagesLoop pred limit perPage page acc pages).2.length := by
  match pages with
  | [] => simp [filterPagesLoop, h]
  | data :: rest =>
    simp only [filterPagesLoop, if_pos h]
    split
    · simp
    · split <;> simp

/-- A full page all of whose items the predicate rejects does not stop
`filterPagesLoop`: provided the accumulator is still below the limit, the
next page is requested (at least two requests issued from here). -/
theorem filterPagesLoop_empty_filter_continues (pred : α → Bool)
    (limit perPage : Nat) (page : Nat) (acc : List α)
    (data : List α) (rest : List (List α))
    (hfull : perPage ≤ data.length) (hrej : data.filter pred = [])
    (hne : data ≠ []) (hacc : acc.length < limit) :
    2 ≤ (filterPagesLoop pred limit perPage page acc
          (data :: rest)).2.length := by
  have hlen : data.length ≠ 0 := by
    simpa using fun h => hne (List.eq_nil_of_length_eq_zero h)
  have hcont : ¬(data.length < perPage ∨ limit ≤ (acc ++ data.filter pred).length) := by
    rw [hrej]
    simp only [List.append_nil]
    omega
  simp only [filterPagesLoop, if_pos hacc, if_neg hlen, if_neg hcont,
    List.length_cons]
  have := filterPagesLoop_first_call pred limit perPage rest (page + 1)
    (acc ++ data.filter pred) (by rw [hrej]; simpa using hacc)
  omega

/-- Each comment-filter stage returns an order-preserving subsequence of
its input. -/
theorem bodyFilter_sublist (bc : Option String) (l : List IssueComment) :
    (bodyFilter bc l).Sublist l := by
  cases bc with
  | none => exact List.Sublist.refl l
  | some s =>
    simp only [bodyFilter]
    split
    · exact List.Sublist.refl l
    · exact List.filter_sublist l

/-- `authorFilter` returns a subsequence of its input. -/
theorem authorFilter_sublist (a : Option String) (l : List IssueComment) :
    (authorFilter a l).Sublist l := by
  cases a with
  | none => exact List.Sublist.refl l
  | some s =>
    simp only [authorFilter]
    split
    · exact List.Sublist.refl l
    · exact List.filter_sublist l

/-- `afterFilter` returns a subsequence of its input. -/
theorem afterFilter_sublist (t : Option Int) (l : List IssueComment) :
    (afterFilter t l).Sublist l := by
  cases t with
  | none => exact List.Sublist.refl l
  | some s => exact List.filter_sublist l

/-- `beforeFilter` returns a subsequence of its input. -/
theorem beforeFilter_sublist (t : Option Int) (l : List IssueComment) :
    (beforeFilter t l).Sublist l := by
  cases t with
  | none => exact List.Sublist.refl l
  | some s => exact List.filter_sublist l

/-- Surviving a nonempty `bodyFilter` pattern means the body exists and
contains the pattern case-insensitively. -/
theorem bodyFilter_mem (s : String) (hs : s ≠ "") (l : List IssueComment)
    (c : IssueComment) (hc : c ∈ bodyFilter (some s) l) :
    ∃ b, c.body = some b
      ∧ listIncludes (lowerList b.toList) (lowerList s.toList) = true := by
  simp only [bodyFilter, if_neg hs] at hc
  have := (List.mem_filter.mp hc).2
  simp only [commentBodyTest] at this
  cases hb : c.body with
  | none => rw [hb] at this; simp at this
  | some b => rw [hb] at this; exact ⟨b, rfl, this⟩

/-- Surviving a nonempty `authorFilter` means the comment's author login
equals the requested author. -/
theorem authorFilter_mem (a : String) (ha : a ≠ "") (l : List IssueComment)
    (c : IssueComment) (hc : c ∈ authorFilter (some a) l) :
    c.user = some a := by
  simp only [authorFilter, if_neg ha] at hc
  have := (List.mem_filter.mp hc).2
  simpa using this

/-- Surviving `afterFilter` means the creation date is strictly later. -/
theorem afterFilter_mem (t : Int) (l : List IssueComment)
    (c : IssueComment) (hc : c ∈ afterFilter (some t) l) :
    t < c.created_at := by
  have := (List.mem_filter.mp hc).2
  simpa using this

/-- Surviving `beforeFilter` means the creation date is strictly
earlier. -/
theorem beforeFilter_mem (t : Int) (l : List IssueComment)
    (c : IssueComment) (hc : c ∈ beforeFilter (some t) l) :
    c.created_at < t := by
  have := (List.mem_filter.mp hc).2
  simpa using this

/-- C1, as stated, is false: `findPRsWithLabels` with `limit = 10`
requests `per_page = 20` (it uses `Math.min(limit * 2, 100)`), not
`min(limit, 100) = 10`. -/
theorem C1_counterexample :
    (findPRsWithLabels ["A"] 10 [] []).2 = [(1, 20)]
    ∧ (20 : Nat) ≠ min 10 100 := by
  constructor
  · rfl
  · decide

/-- C1 (amended): every round of a paginated listing operation requests
the same fixed page size, never re-derived from the number of items still
needed; that size is `min(limit, 100)` for `listDeployments` and
`listAllBranches`, and `min(limit * 2, 100)` for `findPRsWithLabels` and
`searchPullRequests`. -/
theorem C1_fixed_page_size (limit : Nat) (labels : List String)
    (author : Option String) (excludePRs : List Nat)
    (pagesD : List (List α)) (pagesB : List (List Branch))
    (pagesP pagesS : List (List PullRequest)) :
    (∀ c ∈ (listDeployments limit pagesD).2, c.2 = min limit 100)
    ∧ (∀ c ∈ (listAllBranches limit pagesB).2, c.2 = min limit 100)
    ∧ (∀ c ∈ (findPRsWithLabels labels limit excludePRs pagesP).2,
        c.2 = min (limit * 2) 100)
    ∧ (∀ c ∈ (searchPullRequests labels author limit excludePRs pagesS).2,
        c.2 = min (limit * 2) 100) := by
  refine ⟨?_, ?_, ?_, ?_⟩
  · intro c hc
    simp only [listDeployments] at hc
    exact plainPagesLoop_perPage id limit (min limit 100) pagesD 1 [] c hc
  · intro c hc
    simp only [listAllBranches] at hc
    exact plainPagesLoop_perPage Branch.name limit (min limit 100) pagesB 1 [] c hc
  · intro c hc
    by_cases h : labels.length = 0
    · simp [findPRsWithLabels, h] at hc
    · simp only [findPRsWithLabels, if_neg h] at hc
      exact filterPagesLoop_perPage (prMatches labels excludePRs) limit
        (min (limit * 2) 100) pagesP 1 [] c hc
  · intro c hc
    simp only [searchPullRequests] at hc
    exact filterPagesLoop_perPage (searchPRMatches labels author excludePRs)
      limit (min (limit * 2) 100) pagesS 1 [] c hc

/-- Witness for the amended C1 at a concrete invocation. -/
theorem C1_fixed_page_size_witness : ((1, 20) : Nat × Nat).2 = min (10 * 2) 100 :=
  (C1_fixed_page_size 10 ["A"] none [] ([] : List (List Nat)) [] [] []).2.2.1
    (1, 20) (by decide)

/-- C4: calling `findPRsWithLabels` or `findPullRequestsByLabels` with an
empty labels array yields the error `'At least one label must be
specified'` with an empty request trace: the underlying `pulls.list`
fetch is invoked zero times. -/
theorem C4_empty_labels_fail_fast (limit : Nat) (excludePRs : List Nat)
    (pages : List (List PullRequest)) (fetch : Nat → List PullRequest) :
    findPRsWithLabels [] limit excludePRs pages
      = (.error "At least one label must be specified", [])
    ∧ findPullRequestsByLabels [] limit fetch
      = (.error "At least one label must be specified", []) :=
  ⟨rfl, rfl⟩

/-- C9: `pullRequestHasLabels` with an empty labels array returns `true`
when `requireAll` is `true` (vacuous `every`) and `false` when
`requireAll` is `false` (vacuous `some`), with exactly one `pulls.get`
fetch in both cases. -/
theorem C9_empty_labels_vacuous (fetchPR : Unit → PullRequest) :
    pullRequestHasLabels fetchPR [] true = (true, 1)
    ∧ pullRequestHasLabels fetchPR [] false = (false, 1) :=
  ⟨rfl, rfl⟩

/-- C10: `checkBranchExists` returns `true` when `getBranch` succeeds,
`false` exactly when it fails with status 404, and re-throws any other
failure unchanged; `getBranchProtection` returns `null` exactly on a
status-404 failure and re-throws all other failures unchanged. -/
theorem C10_branch_404_handling :
    (checkBranchExists (.ok ()) = .ok true)
    ∧ (∀ res : Except GHError Unit,
        checkBranchExists res = .ok false
          ↔ ∃ e, res = .error e ∧ e.status = some 404)
    ∧ (∀ e : GHError, e.status ≠ some 404 →
        checkBranchExists (.error e) = .error e)
    ∧ (∀ d : α, getBranchProtection (.ok d) = .ok (some d))
    ∧ (∀ res : Except GHError α,
        getBranchProtection res = .ok none
          ↔ ∃ e, res = .error e ∧ e.status = some 404)
    ∧ (∀ e : GHError, e.status ≠ some 404 →
        getBranchProtection (.error e : Except GHError α) = .error e) := by
  refine ⟨rfl, ?_, ?_, fun d => rfl, ?_, ?_⟩
  · intro res
    constructor
    · intro h
      cases res with
      | ok u => simp [checkBranchExists] at h
      | error e =>
        refine ⟨e, rfl, ?_⟩
        by_contra hne
        simp [checkBranchExists, hne] at h
    · rintro ⟨e, rfl, he⟩
      simp [checkBranchExists, he]
  · intro e he
    simp [checkBranchExists, he]
  · intro res
    constructor
    · intro h
      cases res with
      | ok d => simp [getBranchProtection] at h
      | error e =>
        refine ⟨e, rfl, ?_⟩
        by_contra hne
        simp [getBranchProtection, hne] at h
    · rintro ⟨e, rfl, he⟩
      simp [getBranchProtection, he]
  · intro e he
    simp [getBranchProtection, he]

/-- Witness for C10 at concrete 404 and 500 failures. -/
theorem C10_branch_404_handling_witness :
    checkBranchExists (.error ⟨some 404⟩) = .ok false
    ∧ checkBranchExists (.error ⟨some 500⟩) = .error ⟨some 500⟩
    ∧ getBranchProtection (.error ⟨some 404⟩ : Except GHError Unit) = .ok none
    ∧ getBranchProtection (.error ⟨some 500⟩ : Except GHError Unit)
        = .error ⟨some 500⟩ :=
  ⟨((C10_branch_404_handling (α := Unit)).2.1 (.error ⟨some 404⟩)).mpr
      ⟨⟨some 404⟩, rfl, rfl⟩,
   (C10_branch_404_handling (α := Unit)).2.2.1 ⟨some 500⟩ (by decide),
   ((C10_branch_404_handling (α := Unit)).2.2.2.2.1
      (.error ⟨some 404⟩)).mpr ⟨⟨some 404⟩, rfl, rfl⟩,
   (C10_branch_404_handling (α := Unit)).2.2.2.2.2 ⟨some 500⟩ (by decide)⟩

set_option maxRecDepth 8000 in
/-- C6: with three consecutive pages of raw sizes 100, 100 and 37 (no
filtering) and `limit = 250`, the collector makes exactly 3 fetch calls
and returns exactly 237 items in original retrieval order, without
truncation — both for `listDeployments` and for `listAllBranches`. -/
theorem C6_three_page_scenario :
    (listDeployments 250 pagesOf237).2 = [(1, 100), (2, 100), (3, 100)]
    ∧ (listDeployments 250 pagesOf237).1 = List.range 237
    ∧ (listAllBranches 250 branchesOf237).2 = [(1, 100), (2, 100), (3, 100)]
    ∧ (listAllBranches 250 branchesOf237).1 = (List.range 237).map toString :=
  ⟨by decide, by decide, by decide, by decide⟩

/-- C7: `findPRsWithLabels`' predicate keeps exactly the PRs whose label
set includes every required label and whose number is not excluded,
preserving within-page order; on a single short page containing PRs with
label sets `{A,B}`, `{A}` and `{A,B,C}` and required labels `{A,B}`, the
result is the first and third PRs in that order. -/
theorem C7_label_predicate
    (labels : List String) (excludePRs : List Nat) (pr : PullRequest) :
    (prMatches labels excludePRs pr = true ↔
      (pr.number ∉ excludePRs
        ∧ ∀ l ∈ labels, l ∈ pr.labels.map labelName))
    ∧ findPRsWithLabels ["A", "B"] 100 [] [[prAB, prOnlyA, prABC]]
        = (.ok [prAB, prABC], [(1, 100)]) := by
  constructor
  · by_cases hex : excludePRs.contains pr.number
    · rw [List.elem_iff] at hex
      simp [prMatches, hex]
    · have hmem : pr.number ∉ excludePRs := by
        rw [← List.elem_iff]
        exact hex
      simp only [prMatches, if_neg hex]
      simp [List.all_eq_true, hmem, List.elem_iff]
  · rfl

/-- Witness for C7 at a concrete PR and label set. -/
theorem C7_label_predicate_witness :
    prMatches ["A", "B"] [7] prAB = true :=
  (C7_label_predicate ["A", "B"] [7] prAB).1.mpr ⟨by decide, by decide⟩

/-- C2: the pagination loop never requests a page after receiving a page
whose raw item count is zero or short of the requested page size (if
request `i + 1` was issued, the `i`-th page was nonempty and reached
`perPage`); the check uses the raw count, so a full page all of whose
items the predicate rejects does not stop the loop — the next page is
still requested while the accumulator is below the limit. -/
theorem C2_raw_short_page_stop (labels : List String) (limit : Nat)
    (excludePRs : List Nat) (pagesP : List (List PullRequest))
    (pagesD : List (List α)) :
    (∀ i, i + 1 < (findPRsWithLabels labels limit excludePRs pagesP).2.length →
      min (limit * 2) 100 ≤ (pagesP.getD i []).length
        ∧ (pagesP.getD i []).length ≠ 0)
    ∧ (∀ i, i + 1 < (listDeployments limit pagesD).2.length →
      min limit 100 ≤ (pagesD.getD i []).length
        ∧ (pagesD.getD i []).length ≠ 0)
    ∧ (∀ (data : List PullRequest) (rest : List (List PullRequest)),
        labels.length ≠ 0 → 0 < limit →
        min (limit * 2) 100 ≤ data.length →
        data.filter (prMatches labels excludePRs) = [] → data ≠ [] →
        2 ≤ (findPRsWithLabels labels limit excludePRs
              (data :: rest)).2.length) := by
  refine ⟨?_, ?_, ?_⟩
  · intro i hi
    by_cases h : labels.length = 0
    · simp [findPRsWithLabels, h] at hi
    · simp only [findPRsWithLabels, if_neg h] at hi
      exact filterPagesLoop_full_before_next (prMatches labels excludePRs)
        limit (min (limit * 2) 100) pagesP 1 [] i hi
  · intro i hi
    simp only [listDeployments] at hi
    exact plainPagesLoop_full_before_next id limit (min limit 100)
      pagesD 1 [] i hi
  · intro data rest hl hlim hfull hrej hne
    simp only [findPRsWithLabels, if_neg hl]
    exact filterPagesLoop_empty_filter_continues (prMatches labels excludePRs)
      limit (min (limit * 2) 100) 1 [] data rest hfull hrej hne
      (by simpa using hlim)

/-- Witness for C2: a full first page whose two PRs both fail the label
predicate does not stop the loop — a second request is issued. -/
theorem C2_raw_short_page_stop_witness :
    2 ≤ (findPRsWithLabels ["A"] 1 [] [[prNoMatch, prBare]]).2.length :=
  (C2_raw_short_page_stop ["A"] 1 [] [[prNoMatch, prBare]]
    ([] : List (List Nat))).2.2 [prNoMatch, prBare] []
    (by decide) (by decide) (by decide) (by decide) (by decide)

/-- C3: every paginated collector truncates its accumulator with
`slice(0, limit)`, so the returned sequence has length at most `limit`,
for every `limit ≥ 0` and every sequence of pages. -/
theorem C3_result_bounded (limit : Nat) (labels : List String)
    (author : Option String) (excludePRs : List Nat)
    (pagesD : List (List α)) (pagesB : List (List Branch))
    (pagesP pagesS : List (List PullRequest))
    (fetch : Nat → List PullRequest) :
    (listDeployments limit pagesD).1.length ≤ limit
    ∧ (listAllBranches limit pagesB).1.length ≤ limit
    ∧ (searchPullRequests labels author limit excludePRs pagesS).1.length
        ≤ limit
    ∧ (∀ r, (findPRsWithLabels labels limit excludePRs pagesP).1 = .ok r →
        r.length ≤ limit)
    ∧ (∀ r, (findPullRequestsByLabels labels limit fetch).1 = .ok r →
        r.length ≤ limit) := by
  refine ⟨?_, ?_, ?_, ?_, ?_⟩
  · simp only [listDeployments, List.length_take]; omega
  · simp only [listAllBranches, List.length_take]; omega
  · simp only [searchPullRequests, List.length_take]; omega
  · intro r hr
    by_cases h : labels.length = 0
    · simp [findPRsWithLabels, h] at hr
    · simp only [findPRsWithLabels, if_neg h, Except.ok.injEq] at hr
      subst hr
      simp only [List.length_take]
      omega
  · intro r hr
    by_cases h : labels.length = 0
    · simp [findPullRequestsByLabels, h] at hr
    · simp only [findPullRequestsByLabels, if_neg h, Except.ok.injEq] at hr
      subst hr
      simp only [List.length_take]
      omega

/-- Witness for C3 at a concrete invocation with no remote data. -/
theorem C3_result_bounded_witness : ([] : List PullRequest).length ≤ 5 :=
  (C3_result_bounded 5 ["A"] none [] ([] : List (List Nat)) [] [] []
    (fun _ => [])).2.2.2.1 [] rfl

/-- C5: in `removeLabelsFromPullRequest`, a 404 failure on an individual
label removal is caught, logged as informational, and treated as a no-op
for that label while the rest of the batch proceeds and the call resolves
without throwing; a failure whose status is not 404 is re-thrown
unchanged and aborts the remaining labels of the batch. -/
theorem C5_remove_labels_404 (removeLabel : String → Option GHError) :
    (∀ labels : List String,
      (∀ l ∈ labels,
        ((removeLabel l).all fun e => e.status == some 404) = true) →
      (removeLabelsFromPullRequest removeLabel labels).thrown = none
      ∧ (removeLabelsFromPullRequest removeLabel labels).attempted = labels
      ∧ (removeLabelsFromPullRequest removeLabel labels).notFoundLogged
          = labels.filter fun l => (removeLabel l).isSome)
    ∧ (∀ (pre : List String) (l : String) (e : GHError)
         (post : List String),
        (∀ x ∈ pre,
          ((removeLabel x).all fun e2 => e2.status == some 404) = true) →
        removeLabel l = some e → e.status ≠ some 404 →
        (removeLabelsFromPullRequest removeLabel
            (pre ++ l :: post)).thrown = some e
        ∧ (removeLabelsFromPullRequest removeLabel
            (pre ++ l :: post)).attempted = pre ++ [l]) := by
  constructor
  · intro labels
    induction labels with
    | nil => intro _; exact ⟨rfl, rfl, rfl⟩
    | cons lab rest ih =>
      intro h
      have hlab := h lab (List.mem_cons_self lab rest)
      have hrest := ih fun x hx => h x (List.mem_cons_of_mem lab hx)
      cases hrem : removeLabel lab with
      | none =>
        simp only [removeLabelsFromPullRequest, removeLabelsLoop, hrem] at hrest ⊢
        exact ⟨hrest.1, by rw [hrest.2.1],
          by rw [List.filter_cons_of_neg (by simp [hrem])]; exact hrest.2.2⟩
      | some e =>
        have h404 : e.status = some 404 := by
          rw [hrem] at hlab
          simpa using hlab
        simp only [removeLabelsFromPullRequest, removeLabelsLoop, hrem,
          if_pos h404] at hrest ⊢
        exact ⟨hrest.1, by rw [hrest.2.1],
          by rw [List.filter_cons_of_pos (by simp [hrem])]
             rw [hrest.2.2]⟩
  · intro pre
    induction pre with
    | nil =>
      intro l e post _ hrem hne
      simp [removeLabelsFromPullRequest, List.nil_append,
        removeLabelsLoop, hrem, hne]
    | cons x pre' ih =>
      intro l e post h hrem hne
      have hx := h x (List.mem_cons_self x pre')
      have hrest := ih l e post
        (fun y hy => h y (List.mem_cons_of_mem x hy)) hrem hne
      cases hremx : removeLabel x with
      | none =>
        simp only [removeLabelsFromPullRequest, List.cons_append,
          removeLabelsLoop, hremx] at hrest ⊢
        exact ⟨hrest.1, by rw [List.append_eq, hrest.2]⟩
      | some e2 =>
        have h404 : e2.status = some 404 := by
          rw [hremx] at hx
          simpa using hx
        simp only [removeLabelsFromPullRequest, List.cons_append,
          removeLabelsLoop, hremx, if_pos h404] at hrest ⊢
        exact ⟨hrest.1, by rw [List.append_eq, hrest.2]⟩

/-- Witness for C5: removing `["existing", "nonexistent"]` where the
second removal 404s logs one informational entry, attempts both removals
and resolves without throwing; a 500 on `"bad"` is re-thrown and aborts
the remaining batch. -/
theorem C5_remove_labels_404_witness :
    ((removeLabelsFromPullRequest removeStub
        ["existing", "nonexistent"]).thrown = none
      ∧ (removeLabelsFromPullRequest removeStub
          ["existing", "nonexistent"]).attempted
          = ["existing", "nonexistent"]
      ∧ (removeLabelsFromPullRequest removeStub
          ["existing", "nonexistent"]).notFoundLogged = ["nonexistent"])
    ∧ ((removeLabelsFromPullRequest removeStubAbort
          ["ok", "bad", "after"]).thrown = some ⟨some 500⟩
      ∧ (removeLabelsFromPullRequest removeStubAbort
          ["ok", "bad", "after"]).attempted = ["ok", "bad"]) :=
  have h1 := (C5_remove_labels_404 removeStub).1
    ["existing", "nonexistent"] (by decide)
  have h2 := (C5_remove_labels_404 removeStubAbort).2
    ["ok"] "bad" ⟨some 500⟩ ["after"] (by decide) (by decide) (by decide)
  ⟨⟨h1.1, h1.2.1, h1.2.2.trans (by decide)⟩, ⟨h2.1, h2.2⟩⟩

/-- C8: `searchComments` performs exactly one `listComments` call with
`per_page = min(limit, 100)` (it never requests a second page), applies
the body-substring, author and date filters to that single page, and
returns at most the first `limit` survivors — an order-preserving
subsequence of the fetched page whose members satisfy every requested
filter. -/
theorem C8_searchComments_single_round (options : CommentSearchOptions)
    (fetch : Nat → List IssueComment) :
    (searchComments options fetch).2 = [min options.limit 100]
    ∧ (searchComments options fetch).1.Sublist
        (fetch (min options.limit 100))
    ∧ (searchComments options fetch).1.length ≤ options.limit
    ∧ ∀ c ∈ (searchComments options fetch).1,
        (∀ s, options.bodyContains = some s → s ≠ "" →
          ∃ b, c.body = some b
            ∧ listIncludes (lowerList b.toList) (lowerList s.toList) = true)
        ∧ (∀ a, options.author = some a → a ≠ "" → c.user = some a)
        ∧ (∀ t, options.createdAfter = some t → t < c.created_at)
        ∧ (∀ t, options.createdBefore = some t → c.created_at < t) := by
  refine ⟨rfl, ?_, ?_, ?_⟩
  · simp only [searchComments]
    exact ((((List.take_sublist _ _).trans
      (beforeFilter_sublist _ _)).trans
      (afterFilter_sublist _ _)).trans
      (authorFilter_sublist _ _)).trans
      (bodyFilter_sublist _ _)
  · simp only [searchComments, List.length_take]
    omega
  · intro c hc
    simp only [searchComments] at hc
    have hm4 : c ∈ beforeFilter options.createdBefore
        (afterFilter options.createdAfter
          (authorFilter options.author
            (bodyFilter options.bodyContains
              (fetch (min options.limit 100))))) :=
      (List.take_sublist _ _).subset hc
    have hm3 := (beforeFilter_sublist _ _).subset hm4
    have hm2 := (afterFilter_sublist _ _).subset hm3
    have hm1 := (authorFilter_sublist _ _).subset hm2
    refine ⟨?_, ?_, ?_, ?_⟩
    · intro s hs hsne
      rw [hs] at hm1
      exact bodyFilter_mem s hsne _ c hm1
    · intro a ha hane
      rw [ha] at hm2
      exact authorFilter_mem a hane _ c hm2
    · intro t ht
      rw [ht] at hm3
      exact afterFilter_mem t _ c hm3
    · intro t ht
      rw [ht] at hm4
      exact beforeFilter_mem t _ c hm4

/-- Witness for C8 at a concrete search over two comments. -/
theorem C8_searchComments_single_round_witness :
    (searchComments commentOpts commentFetch).2 = [2]
    ∧ commentA.user = some "alice"
    ∧ (5 : Int) < commentA.created_at :=
  ⟨((C8_searchComments_single_round commentOpts commentFetch).1).trans
      (by decide),
   (((C8_searchComments_single_round commentOpts commentFetch).2.2.2
      commentA (by decide)).2.1 "alice" rfl (by decide)),
   (((C8_searchComments_single_round commentOpts commentFetch).2.2.2
      commentA (by decide)).2.2.1 5 rfl)⟩
